import Mathlib

/-!
Verification development for the request-adaptation layer of CLIProxyAPI.

The Go sources are shallowly embedded:
* JSON payloads become the inductive `JVal`; `gjson` path reads become `jget`
  and the `Result.String()` conversion becomes `jstr`.
* `internal/runtime/executor/copilot_headers.go` is embedded function by
  function (`collectCopilotHeaderHints`, `shouldUseAgentInitiator`,
  `copilotHeaderProfileForModel`, ...); the per-process
  `initiatorCount` map becomes a total function `String → Nat` (a Go map read
  of a missing key yields the zero value).
* Components whose implementation files are absent from the source tree
  (`resolveCodexAlias`, `setReasoningEffortByAlias`,
  `ConvertOpenAIResponsesRequestToOpenAIChatCompletions`,
  `mergeEssentialCopilotModels`) are modelled from the specification and
  their test files; each such definition is marked `Modelled from the spec`.
-/

/-- JSON value tree. Object fields keep their textual order, mirroring the
byte-level payloads the Go code manipulates. Numbers are integral here: none
of the embedded code paths inspects fractional values. -/
inductive JVal where
  | null
  | bool (b : Bool)
  | num (n : Int)
  | str (s : String)
  | arr (items : List JVal)
  | obj (fields : List (String × JVal))
deriving Repr

/-- Lowercase a string character-wise (models `strings.ToLower` on the ASCII
identifiers this code compares). -/
def lowerStr (s : String) : String :=
  String.mk (s.data.map Char.toLower)

/-- Trim leading and trailing whitespace (models `strings.TrimSpace`). -/
def trimStr (s : String) : String :=
  String.mk (((s.data.dropWhile Char.isWhitespace).reverse.dropWhile Char.isWhitespace).reverse)

/-- `strings.ToLower(strings.TrimSpace(s))`, the role/profile normalization. -/
def lowerTrim (s : String) : String :=
  lowerStr (trimStr s)

/-- First field of a JSON object with the given key (gjson returns the first
match of a plain key path). -/
def lookupField : List (String × JVal) → String → Option JVal
  | [], _ => none
  | (k', v) :: rest, k => if k' = k then some v else lookupField rest k

/-- `gjson.Get` for a single plain key: objects are searched, every other
shape yields a non-existent result. -/
def jget : JVal → String → Option JVal
  | .obj fields, k => lookupField fields k
  | _, _ => none

mutual
/-- Raw JSON text of a value (gjson's `Result.Raw`, as re-serialized text). -/
def jraw : JVal → String
  | .null => "null"
  | .bool true => "true"
  | .bool false => "false"
  | .num n => toString n
  | .str s => "\"" ++ s ++ "\""
  | .arr items => "[" ++ jrawList items ++ "]"
  | .obj fields => "\x7b" ++ jrawFields fields ++ "\x7d"

/-- Comma-joined raw forms of array elements. -/
def jrawList : List JVal → String
  | [] => ""
  | [x] => jraw x
  | x :: xs => jraw x ++ "," ++ jrawList xs

/-- Comma-joined raw forms of object fields. -/
def jrawFields : List (String × JVal) → String
  | [] => ""
  | [(k, v)] => "\"" ++ k ++ "\":" ++ jraw v
  | (k, v) :: xs => "\"" ++ k ++ "\":" ++ jraw v ++ "," ++ jrawFields xs
end

/-- gjson `Result.String()`: strings verbatim, `Null` becomes `""`, booleans
and numbers their text, composite values their raw JSON. -/
def jstr : JVal → String
  | .null => ""
  | .bool true => "true"
  | .bool false => "false"
  | .num n => toString n
  | .str s => s
  | .arr items => jraw (.arr items)
  | .obj fields => jraw (.obj fields)

/-- `v.Get(k).String()`: a missing key reads as the empty string. -/
def jgetStr (v : JVal) (k : String) : String :=
  match jget v k with
  | some x => jstr x
  | none => ""

/-- `IsArray() && len(Array()) > 0` on a lookup result. -/
def isNonEmptyArr : Option JVal → Bool
  | some (.arr (_ :: _)) => true
  | _ => false

/-- Header hints collected per request (struct `copilotHeaderHints`). -/
structure copilotHeaderHints where
  hasVision : Bool := false
  userFromPayload : Bool := false
  lastUserFromPayload : Bool := false
  agentFromPayload : Bool := false
  forceAgentFromHeaders : Bool := false
  promptCacheKey : String := ""
deriving Repr, DecidableEq

/-- The fixed closed set `responsesAPIAgentTypes` of agent/tool item types. -/
def responsesAPIAgentTypes : List String :=
  ["function_call", "function_call_output", "computer_call",
   "computer_call_output", "web_search_call", "file_search_call",
   "code_interpreter_call", "local_shell_call", "local_shell_call_output",
   "mcp_call", "mcp_list_tools", "mcp_approval_request",
   "mcp_approval_response", "image_generation_call", "reasoning"]

/-- `isResponsesAPIAgentItem`: assistant/tool role (case/space-insensitive) or
an agent item type (compared verbatim). -/
def isResponsesAPIAgentItem (item : JVal) : Bool :=
  let role := lowerTrim (jgetStr item "role")
  if role = "assistant" ∨ role = "tool" then true
  else responsesAPIAgentTypes.contains (jgetStr item "type")

/-- `isResponsesAPIVisionContent`: an `input_image` content part. -/
def isResponsesAPIVisionContent (part : JVal) : Bool :=
  jgetStr part "type" == "input_image"

/-- `net/http` headers with `Header.Get`'s case-insensitive key matching. -/
def headerGet (headers : List (String × String)) (k : String) : String :=
  match headers.find? (fun p => lowerStr p.1 == lowerStr k) with
  | some p => p.2
  | none => ""

/-- `forceAgentCallFromHeaders`: the `force-copilot-agent` flag header (both
spellings in the source canonicalize to the same case-insensitive lookup),
trimmed, truthy among 1/true/t/yes/y/on case-insensitively. -/
def forceAgentCallFromHeaders (headers : List (String × String)) : Bool :=
  let raw := trimStr (headerGet headers "force-copilot-agent")
  if raw = "" then false
  else
    match lowerStr raw with
    | "1" => true | "true" => true | "t" => true
    | "yes" => true | "y" => true | "on" => true
    | _ => false

/-- `promptCacheKeyFromPayload`: first non-empty trimmed value among
`prompt_cache_key` and `metadata.prompt_cache_key`. -/
def promptCacheKeyFromPayload (payload : JVal) : String :=
  let metaKey : String :=
    match jget payload "metadata" with
    | some meta =>
      match jget meta "prompt_cache_key" with
      | some v => if trimStr (jstr v) ≠ "" then trimStr (jstr v) else ""
      | none => ""
    | none => ""
  match jget payload "prompt_cache_key" with
  | some v => if trimStr (jstr v) ≠ "" then trimStr (jstr v) else metaKey
  | none => metaKey

/-- One iteration of the `messages` loop in `collectCopilotHeaderHints`:
image parts mark vision; a `user` role marks `userFromPayload` (and
`lastUserFromPayload` on the last entry); any other non-empty role marks
`agentFromPayload`. -/
def scanMessageStep (h : copilotHeaderHints) (msg : JVal) (isLast : Bool) : copilotHeaderHints :=
  let h :=
    match jget msg "content" with
    | some (.arr parts) =>
      if parts.any (fun p => jgetStr p "type" == "image_url") then { h with hasVision := true } else h
    | _ => h
  let role := lowerTrim (jgetStr msg "role")
  if role = "user" then
    let h := { h with userFromPayload := true }
    if isLast then { h with lastUserFromPayload := true } else h
  else if role ≠ "" then { h with agentFromPayload := true }
  else h

/-- The `messages` loop; the index comparison `i == len(arr)-1` becomes the
`rest.isEmpty` flag of the step. -/
def scanMessages : List JVal → copilotHeaderHints → copilotHeaderHints
  | [], h => h
  | msg :: rest, h => scanMessages rest (scanMessageStep h msg rest.isEmpty)

/-- One iteration of the `input` loop: vision parts, the same role logic, and
`isResponsesAPIAgentItem` forcing `agentFromPayload`. -/
def scanInputStep (h : copilotHeaderHints) (item : JVal) (isLast : Bool) : copilotHeaderHints :=
  let h :=
    match jget item "content" with
    | some (.arr parts) =>
      if parts.any isResponsesAPIVisionContent then { h with hasVision := true } else h
    | _ => h
  let role := lowerTrim (jgetStr item "role")
  let h :=
    if role = "user" then
      let h := { h with userFromPayload := true }
      if isLast then { h with lastUserFromPayload := true } else h
    else h
  let h := if role ≠ "" ∧ role ≠ "user" then { h with agentFromPayload := true } else h
  if isResponsesAPIAgentItem item then { h with agentFromPayload := true } else h

/-- The `input` loop of `collectCopilotHeaderHints`. -/
def scanInput : List JVal → copilotHeaderHints → copilotHeaderHints
  | [], h => h
  | item :: rest, h => scanInput rest (scanInputStep h item rest.isEmpty)

/-- `collectCopilotHeaderHints`: cache key and force header, then the four
payload-level agent signals (`previous_response_id` existing, non-empty
`tools`/`functions` arrays, `tool_choice` other than `none`), then the
`messages` scan, then the `input` scan. -/
def collectCopilotHeaderHints (payload : JVal) (headers : List (String × String)) : copilotHeaderHints :=
  let hints : copilotHeaderHints :=
    { promptCacheKey := promptCacheKeyFromPayload payload
      forceAgentFromHeaders := forceAgentCallFromHeaders headers }
  let hints := if (jget payload "previous_response_id").isSome then { hints with agentFromPayload := true } else hints
  let hints := if isNonEmptyArr (jget payload "tools") then { hints with agentFromPayload := true } else hints
  let hints := if isNonEmptyArr (jget payload "functions") then { hints with agentFromPayload := true } else hints
  let hints :=
    match jget payload "tool_choice" with
    | some tc => if jstr tc ≠ "none" then { hints with agentFromPayload := true } else hints
    | none => hints
  let hints :=
    match jget payload "messages" with
    | some (.arr arr) => scanMessages arr hints
    | _ => hints
  match jget payload "input" with
  | some (.arr arr) => scanInput arr hints
  | _ => hints

/-- Per-credential Copilot configuration entry (`config.CopilotKey`), the
fields this layer reads. -/
structure CopilotKey where
  HeaderProfile : String := ""
  CLIHeaderModels : List String := []
  VSCodeChatHeaderModels : List String := []
  ForceAgentCall : Bool := false
  AgentInitiatorPersist : Bool := false
deriving Repr, DecidableEq

/-- The slice `cfg.CopilotKey` of configured credential entries. -/
structure Config where
  CopilotKey : List CopilotKey := []
deriving Repr, DecidableEq

/-- `CopilotExecutor` state: its configuration and the per-process
`initiatorCount` map. A Go map read of an absent key yields `0`, so the map
is a total function into `Nat`. -/
structure CopilotExecutor where
  cfg : Config
  initiatorCount : String → Nat

/-- `forceAgentCallEnabled`: true when any configured entry sets
`ForceAgentCall` (the loop over `e.cfg.CopilotKey`). -/
def forceAgentCallEnabled (e : CopilotExecutor) : Bool :=
  e.cfg.CopilotKey.any (fun k => k.ForceAgentCall)

/-- `agentInitiatorPersistEnabled`: true when any configured entry sets
`AgentInitiatorPersist`. -/
def agentInitiatorPersistEnabled (e : CopilotExecutor) : Bool :=
  e.cfg.CopilotKey.any (fun k => k.AgentInitiatorPersist)

/-- `copilotKeyConfig`: pointer to the first configured entry, `nil` when the
slice is empty. -/
def copilotKeyConfig (e : CopilotExecutor) : Option CopilotKey :=
  e.cfg.CopilotKey.head?

/-- `shouldUseAgentInitiator`: the ordered decision chain; the final branch
performs the locked read-and-increment on `initiatorCount` and classifies
agent iff the pre-increment counter was positive. Returns the classification
(`true` = agent) together with the updated executor state. -/
def shouldUseAgentInitiator (e : CopilotExecutor) (h : copilotHeaderHints) : Bool × CopilotExecutor :=
  if h.forceAgentFromHeaders then (true, e)
  else if forceAgentCallEnabled e then (true, e)
  else if h.agentFromPayload then (true, e)
  else if !h.userFromPayload then (true, e)
  else if !h.lastUserFromPayload then (true, e)
  else if agentInitiatorPersistEnabled e ∧ h.promptCacheKey ≠ "" then
    let count := e.initiatorCount h.promptCacheKey
    (decide (0 < count),
      { e with initiatorCount := fun k => if k = h.promptCacheKey then count + 1 else e.initiatorCount k })
  else (false, e)

/-- A sequence of classifier calls threading the executor state; yields the
classification of each call in order (`true` = agent). -/
def runInitiatorCalls (e : CopilotExecutor) : List copilotHeaderHints → List Bool
  | [] => []
  | h :: rest =>
    let r := shouldUseAgentInitiator e h
    r.1 :: runInitiatorCalls r.2 rest

/-- Header profile selector outcomes. -/
inductive copilotHeaderProfile where
  | cli
  | vscodeChat
deriving Repr, DecidableEq

/-- The built-in allowlist `defaultCopilotCLIHeaderModels`. -/
def defaultCopilotCLIHeaderModels : List String :=
  ["claude-sonnet-4.5", "claude-haiku-4.5", "claude-opus-4.5",
   "claude-sonnet-4", "gpt-5.1-codex-max", "gpt-5.1-codex", "gpt-5.2",
   "gpt-5.1", "gpt-5", "gpt-5.1-codex-mini", "gpt-5-mini", "gpt-4o",
   "gpt-4.1", "gemini-3-pro-preview"]

/-- `normalizeModelID`: `strings.TrimSpace(strings.ToLower(model))`. -/
def normalizeModelID (model : String) : String :=
  trimStr (lowerStr model)

/-- Boolean prefix test on character lists (`strings.HasPrefix`). -/
def chPfx : List Char → List Char → Bool
  | [], _ => true
  | _ :: _, [] => false
  | a :: as, b :: bs => a == b && chPfx as bs

/-- `strings.TrimPrefix(m, "copilot-")`: drop the routing prefix once when
present (de-aliasing). -/
def stripCopilotAlias (m : String) : String :=
  if chPfx "copilot-".data m.data then String.mk (m.data.drop 8) else m

/-- `copilotHeaderProfileForModel`: normalize, de-alias, then the precedence
chain (empty → CLI, `gpt-4` → CLI, per-entry CLI list, per-entry VSCode list,
entry-wide `HeaderProfile`, built-in allowlist, VSCode fallback). The Go
code's fall-through to the allowlist appears once per `entry` case here. -/
def copilotHeaderProfileForModel (entry : Option CopilotKey) (model : String) : copilotHeaderProfile :=
  let m := normalizeModelID model
  if m = "" then .cli
  else
    let mDeAliased := stripCopilotAlias m
    if mDeAliased = "" then .cli
    else if mDeAliased = "gpt-4" then .cli
    else
      match entry with
      | some e =>
        if e.CLIHeaderModels.any (fun v => normalizeModelID v == mDeAliased) then .cli
        else if e.VSCodeChatHeaderModels.any (fun v => normalizeModelID v == mDeAliased) then .vscodeChat
        else
          let hp := lowerTrim e.HeaderProfile
          if hp = "cli" then .cli
          else if hp = "vscode-chat" then .vscodeChat
          else if mDeAliased ∈ defaultCopilotCLIHeaderModels then .cli
          else .vscodeChat
      | none =>
        if mDeAliased ∈ defaultCopilotCLIHeaderModels then .cli
        else .vscodeChat

/-- Modelled from the spec: the implementation of `resolveCodexAlias` is not
in the source tree (only its test file is). Per §4.1 the known hyphenated
families carry their own effort vocabularies (`minimal/low/medium/high` for
the gpt-5 generation, `none/low/medium/high` plus `xhigh` for later ones);
the list is ordered so the longest family prefix is tried first. -/
def codexAliasFamilies : List (String × List String) :=
  [("gpt-5.1-codex-mini", ["none", "low", "medium", "high", "xhigh"]),
   ("gpt-5.1-codex-max", ["none", "low", "medium", "high", "xhigh"]),
   ("gpt-5.2-codex", ["none", "low", "medium", "high", "xhigh"]),
   ("gpt-5.1-codex", ["none", "low", "medium", "high", "xhigh"]),
   ("gpt-5-codex", ["minimal", "low", "medium", "high"]),
   ("gpt-5.2", ["none", "low", "medium", "high", "xhigh"]),
   ("gpt-5.1", ["none", "low", "medium", "high"]),
   ("gpt-5", ["minimal", "low", "medium", "high"])]

/-- Modelled from the spec: `resolveCodexAlias` (implementation absent from
the source tree). Fix the longest known family whose name plus a hyphen
prefixes the input, then accept exactly when the remaining suffix is in that
family's effort vocabulary; everything else is `ok=false`. -/
def resolveCodexAlias (model : String) : String × String × Bool :=
  match codexAliasFamilies.find? (fun fam => chPfx (fam.1.data ++ ['-']) model.data) with
  | some fam =>
    let effort := String.mk (model.data.drop (fam.1.data.length + 1))
    if effort ∈ fam.2 then (fam.1, effort, true) else ("", "", false)
  | none => ("", "", false)

/-- Replace the value at a key of an object (in place, preserving position),
appending the binding when the key is absent — the write primitive of the
payload mutator. -/
def setObjKey : List (String × JVal) → String → JVal → List (String × JVal)
  | [], k, v => [(k, v)]
  | (k', v') :: rest, k, v =>
    if k' = k then (k, v) :: rest else (k', v') :: setObjKey rest k v

/-- Top-level JSON write: objects get the key set, any other payload becomes
a fresh object holding just that key. -/
def jsetTop (payload : JVal) (k : String) (v : JVal) : JVal :=
  match payload with
  | .obj fields => .obj (setObjKey fields k v)
  | _ => .obj [(k, v)]

/-- Modelled from the spec: `setReasoningEffortByAlias` (implementation
absent from the source tree; §4.2). Always overwrite top-level `model`; when
the trimmed lower-cased effort is non-empty, write it to `reasoning.effort`
(creating the `reasoning` object when absent or non-object), otherwise leave
the payload untouched beyond `model`. -/
def setReasoningEffortByAlias (payload : JVal) (baseModel effort : String) : JVal :=
  let p := jsetTop payload "model" (.str baseModel)
  let eff := lowerStr (trimStr effort)
  if eff = "" then p
  else
    let reasoning :=
      match jget p "reasoning" with
      | some (.obj fs) => JVal.obj (setObjKey fs "effort" (.str eff))
      | _ => JVal.obj [("effort", .str eff)]
    jsetTop p "reasoning" reasoning

/-- Modelled from the spec: the per-part remap of the format translator
(§4.6) — a typed `input_text` part becomes a flat `text` part, an
`input_image` part becomes an `image_url` part, unknown part types are
dropped. -/
def convertResponsesPart (part : JVal) : Option JVal :=
  match jgetStr part "type" with
  | "input_text" => some (.obj [("type", .str "text"), ("text", (jget part "text").getD (.str ""))])
  | "input_image" => some (.obj [("type", .str "image_url"), ("image_url", (jget part "image_url").getD .null)])
  | _ => none

/-- Modelled from the spec: one typed input entry (§4.6). A role-bearing
entry becomes one flat message preserving the role, passing string content
through unchanged and remapping multi-part content part by part; entries
without a role (tool calls, unknown item types) are skipped. -/
def convertResponsesItem (item : JVal) : Option JVal :=
  let role := jgetStr item "role"
  if role = "" then none
  else
    let content :=
      match jget item "content" with
      | some (.str s) => JVal.str s
      | some (.arr parts) => JVal.arr (parts.filterMap convertResponsesPart)
      | _ => JVal.str ""
    some (.obj [("role", .str role), ("content", content)])

/-- The translation loop over the typed input array: recognized entries are
kept in order, unrecognized ones are skipped without aborting. -/
def convertResponsesItems : List JVal → List JVal
  | [] => []
  | item :: rest =>
    match convertResponsesItem item with
    | some msg => msg :: convertResponsesItems rest
    | none => convertResponsesItems rest

/-- Modelled from the spec:
`ConvertOpenAIResponsesRequestToOpenAIChatCompletions` (implementation
absent from the source tree; §4.6 and its test). Reads the `input` array if
present and emits a flat chat-completions payload. -/
def ConvertOpenAIResponsesRequestToOpenAIChatCompletions (modelName : String) (payload : JVal) (stream : Bool) : JVal :=
  let items :=
    match jget payload "input" with
    | some (.arr a) => a
    | _ => []
  .obj [("model", .str modelName),
        ("messages", .arr (convertResponsesItems items)),
        ("stream", .bool stream)]

/-- Catalog entry `registry.ModelInfo` (the fields this layer reads; the Go
field `Type` is spelled `Typ` because `Type` is reserved in Lean). -/
structure ModelInfo where
  ID : String := ""
  Object : String := ""
  Typ : String := ""
  OwnedBy : String := ""
  Created : Int := 0
  ContextLength : Int := 0
  MaxCompletionTokens : Int := 0
  InputTokenLimit : Int := 0
  OutputTokenLimit : Int := 0
  SupportedParameters : List String := []
  DisplayName : String := ""
  Description : String := ""
deriving Repr, DecidableEq

/-- Modelled from the spec: the fixed essential-model list (its defining file
is absent from the source tree; the test pins `gemini-3-flash-preview` with
copilot ownership markers, positive limits and tool support). -/
def essentialCopilotModels : List ModelInfo :=
  [{ ID := "gemini-3-flash-preview", Object := "model", Typ := "copilot",
     OwnedBy := "copilot", ContextLength := 1048576,
     MaxCompletionTokens := 65536,
     SupportedParameters := ["tools", "tool_choice", "streaming", "max_tokens"] }]

/-- Modelled from the spec: `mergeEssentialCopilotModels` (implementation
absent from the source tree; §4.7). Keep the existing entries in order and
append, stamped with `Created = now`, each essential model whose ID is not
already present case-insensitively. -/
def mergeEssentialCopilotModels (existing : List ModelInfo) (now : Int) : List ModelInfo :=
  existing ++
    (essentialCopilotModels.filter
        (fun m => !existing.any (fun e => lowerStr e.ID == lowerStr m.ID))).map
      (fun m => { m with Created := now })

/-- Spec-side restatement of the initiator decision, written as the claim's
ordered rule list (a)–(f), first match wins; rule (f) reads the stored
counter but performs no update. -/
def specInitiatorDecision (e : CopilotExecutor) (h : copilotHeaderHints) : Bool :=
  if h.forceAgentFromHeaders then true
  else if ∃ k ∈ e.cfg.CopilotKey, k.ForceAgentCall = true then true
  else if h.agentFromPayload then true
  else if h.userFromPayload = false then true
  else if h.lastUserFromPayload = false then true
  else if agentInitiatorPersistEnabled e ∧ h.promptCacheKey ≠ "" then
    decide (0 < e.initiatorCount h.promptCacheKey)
  else false

/-- Decision rules (a)–(e) all fail, persistence is on and a cache key is
present: the single situation in which a call writes to `initiatorCount`. -/
def copilotPersistCondition (e : CopilotExecutor) (h : copilotHeaderHints) : Prop :=
  h.forceAgentFromHeaders = false ∧ forceAgentCallEnabled e = false ∧
    h.agentFromPayload = false ∧ h.userFromPayload = true ∧
    h.lastUserFromPayload = true ∧ agentInitiatorPersistEnabled e = true ∧
    h.promptCacheKey ≠ ""

instance (e : CopilotExecutor) (h : copilotHeaderHints) : Decidable (copilotPersistCondition e h) := by
  unfold copilotPersistCondition; infer_instance

/-- Hints of a payload passing decision rules (a), (c), (d), (e) with a
non-empty cache key: no force header, no agent signal, a user message
present and last. -/
def pureUserHints (h : copilotHeaderHints) : Prop :=
  h.forceAgentFromHeaders = false ∧ h.agentFromPayload = false ∧
    h.userFromPayload = true ∧ h.lastUserFromPayload = true ∧
    h.promptCacheKey ≠ ""

instance (h : copilotHeaderHints) : Decidable (pureUserHints h) := by
  unfold pureUserHints; infer_instance

/-- The executor state after the read-and-increment on a hint's cache key. -/
def bumpInitiator (e : CopilotExecutor) (key : String) : CopilotExecutor :=
  { e with initiatorCount := fun k => if k = key then e.initiatorCount key + 1 else e.initiatorCount k }

/-- A flat message entry carrying an agent signal as the code computes it:
any non-empty normalized role other than `user`. -/
def msgAgentSignal (msg : JVal) : Bool :=
  let role := lowerTrim (jgetStr msg "role")
  decide (role ≠ "user" ∧ role ≠ "")

/-- A typed input entry carrying an agent signal as the code computes it:
a non-empty non-`user` role, or `isResponsesAPIAgentItem`. -/
def inputAgentSignal (item : JVal) : Bool :=
  (let role := lowerTrim (jgetStr item "role")
   decide (role ≠ "" ∧ role ≠ "user")) || isResponsesAPIAgentItem item

/-- The claim's stated condition for `agentFromPayload` (C2), verbatim:
assistant/tool roles only, and a NON-EMPTY `previous_response_id`. -/
def claimC2Cond (payload : JVal) : Bool :=
  (match jget payload "messages" with
   | some (.arr a) =>
     a.any (fun m =>
       let r := lowerTrim (jgetStr m "role")
       r == "assistant" || r == "tool")
   | _ => false)
  || (match jget payload "input" with
      | some (.arr a) =>
        a.any (fun it =>
          (let r := lowerTrim (jgetStr it "role")
           r == "assistant" || r == "tool") || responsesAPIAgentTypes.contains (jgetStr it "type"))
      | _ => false)
  || (match jget payload "previous_response_id" with
      | some v => !(jstr v == "")
      | none => false)
  || isNonEmptyArr (jget payload "tools")
  || isNonEmptyArr (jget payload "functions")
  || (match jget payload "tool_choice" with
      | some tc => !(jstr tc == "none")
      | none => false)

/-- The amended condition for `agentFromPayload`: any non-empty non-`user`
role counts (not just assistant/tool), and a `previous_response_id` field
that merely exists counts even when empty. -/
def amendedAgentCond (payload : JVal) : Bool :=
  (jget payload "previous_response_id").isSome
  || isNonEmptyArr (jget payload "tools")
  || isNonEmptyArr (jget payload "functions")
  || (match jget payload "tool_choice" with
      | some tc => !(jstr tc == "none")
      | none => false)
  || (match jget payload "messages" with
      | some (.arr a) => a.any msgAgentSignal
      | _ => false)
  || (match jget payload "input" with
      | some (.arr a) => a.any inputAgentSignal
      | _ => false)

/-- Spec-side restatement of the header-profile selector as the claim's flat
ordered rule list 1–8 (first match wins). -/
def copilotHeaderProfileSpec (entry : Option CopilotKey) (model : String) : copilotHeaderProfile :=
  let m := normalizeModelID model
  let mD := stripCopilotAlias m
  if m = "" then .cli
  else if mD = "" then .cli
  else if mD = "gpt-4" then .cli
  else if (match entry with
           | some e => e.CLIHeaderModels.any (fun v => normalizeModelID v == mD)
           | none => false) then .cli
  else if (match entry with
           | some e => e.VSCodeChatHeaderModels.any (fun v => normalizeModelID v == mD)
           | none => false) then .vscodeChat
  else if (match entry with
           | some e => lowerTrim e.HeaderProfile == "cli"
           | none => false) then .cli
  else if (match entry with
           | some e => lowerTrim e.HeaderProfile == "vscode-chat"
           | none => false) then .vscodeChat
  else if mD ∈ defaultCopilotCLIHeaderModels then .cli
  else .vscodeChat

/-- Nested two-step gjson path read (`a.b`) through object fields. -/
def jgetPath (v : JVal) (k1 k2 : String) : Option JVal :=
  match jget v k1 with
  | some w => jget w k2
  | none => none

/-- Fixture: hints of a pure user turn on cache key `k1`. -/
def hintsUserK1 : copilotHeaderHints :=
  { userFromPayload := true, lastUserFromPayload := true, promptCacheKey := "k1" }

/-- Fixture: hints of a pure user turn on cache key `k2`. -/
def hintsUserK2 : copilotHeaderHints :=
  { userFromPayload := true, lastUserFromPayload := true, promptCacheKey := "k2" }

/-- Fixture: executor with the persist-initiator flag on and no recorded
counters. -/
def execPersist : CopilotExecutor :=
  { cfg := { CopilotKey := [{ AgentInitiatorPersist := true }] }, initiatorCount := fun _ => 0 }

/-- Fixture: executor with no credential entries and no recorded counters. -/
def execPlain : CopilotExecutor :=
  { cfg := {}, initiatorCount := fun _ => 0 }

/-- Fixture: a system message followed by a user message — a payload whose
only non-user role is `system`. -/
def payloadSystemUser : JVal :=
  .obj [("messages", .arr
    [.obj [("role", .str "system"), ("content", .str "x")],
     .obj [("role", .str "user"), ("content", .str "hi")]])]

/-- Fixture: a pure user payload carrying a `previous_response_id` field
whose value is the empty string. -/
def payloadEmptyPrev : JVal :=
  .obj [("previous_response_id", .str ""),
        ("messages", .arr [.obj [("role", .str "user"), ("content", .str "hi")]])]

/-- Fixture: a catalog that already holds two case-insensitively equal IDs. -/
def dupModelList : List ModelInfo :=
  [{ ID := "gpt-5" }, { ID := "GPT-5" }]

theorem string_data_ext {a b : String} (h : a.data = b.data) : a = b := by
  cases a; cases b; exact congrArg String.mk h

theorem string_append_data (a b : String) : (a ++ b).data = a.data ++ b.data := by
  cases a; cases b; rfl

theorem chPfx_iff : ∀ p l : List Char, chPfx p l = true ↔ p <+: l := by
  intro p
  induction p with
  | nil => intro l; simp only [chPfx]; simp [List.nil_prefix]
  | cons a as ih =>
    intro l
    cases l with
    | nil =>
      rw [show chPfx (a :: as) [] = false from rfl]
      simp [List.prefix_nil]
    | cons b bs =>
      rw [show chPfx (a :: as) (b :: bs) = (a == b && chPfx as bs) from rfl]
      simp [ih, List.cons_prefix_cons, Bool.and_eq_true, beq_iff_eq]

theorem lookupField_setObjKey_self : ∀ (fs : List (String × JVal)) (k : String) (v : JVal),
    lookupField (setObjKey fs k v) k = some v := by
  intro fs k v
  induction fs with
  | nil => simp [setObjKey, lookupField]
  | cons p rest ih =>
    obtain ⟨k', v'⟩ := p
    by_cases hk : k' = k
    · simp [setObjKey, lookupField, hk]
    · simp [setObjKey, lookupField, hk, ih]

theorem lookupField_setObjKey_other : ∀ (fs : List (String × JVal)) (k : String) (v : JVal) (k2 : String),
    k2 ≠ k → lookupField (setObjKey fs k v) k2 = lookupField fs k2 := by
  intro fs k v k2 hne
  induction fs with
  | nil => simp [setObjKey, lookupField, Ne.symm hne]
  | cons p rest ih =>
    obtain ⟨k', v'⟩ := p
    by_cases hk : k' = k
    · subst hk
      simp [setObjKey, lookupField, Ne.symm hne]
    · simp [setObjKey, lookupField, hk, ih]

theorem setObjKey_keys : ∀ (fs : List (String × JVal)) (k : String) (v : JVal),
    ∃ extra, (setObjKey fs k v).map Prod.fst = fs.map Prod.fst ++ extra ∧ ∀ x ∈ extra, x = k := by
  intro fs k v
  induction fs with
  | nil => exact ⟨[k], by simp [setObjKey], by simp⟩
  | cons p rest ih =>
    obtain ⟨k', v'⟩ := p
    by_cases hk : k' = k
    · exact ⟨[], by simp [setObjKey, hk], by simp⟩
    · obtain ⟨extra, hmap, hall⟩ := ih
      exact ⟨extra, by simp [setObjKey, hk, hmap], hall⟩

theorem scanMessageStep_agent (h : copilotHeaderHints) (msg : JVal) (b : Bool) :
    (scanMessageStep h msg b).agentFromPayload = (h.agentFromPayload || msgAgentSignal msg) := by
  unfold scanMessageStep msgAgentSignal
  by_cases hu : lowerTrim (jgetStr msg "role") = "user" <;>
  by_cases he : lowerTrim (jgetStr msg "role") = "" <;>
  repeat' split <;>
  simp_all

theorem scanInputStep_agent (h : copilotHeaderHints) (item : JVal) (b : Bool) :
    (scanInputStep h item b).agentFromPayload = (h.agentFromPayload || inputAgentSignal item) := by
  unfold scanInputStep inputAgentSignal
  by_cases hu : lowerTrim (jgetStr item "role") = "user" <;>
  by_cases he : lowerTrim (jgetStr item "role") = "" <;>
  repeat' split <;>
  simp_all

theorem scanMessages_agent : ∀ (arr : List JVal) (h : copilotHeaderHints),
    (scanMessages arr h).agentFromPayload = (h.agentFromPayload || arr.any msgAgentSignal) := by
  intro arr
  induction arr with
  | nil => intro h; simp [scanMessages]
  | cons m rest ih =>
    intro h
    simp [scanMessages, ih, scanMessageStep_agent, Bool.or_assoc]

theorem scanInput_agent : ∀ (arr : List JVal) (h : copilotHeaderHints),
    (scanInput arr h).agentFromPayload = (h.agentFromPayload || arr.any inputAgentSignal) := by
  intro arr
  induction arr with
  | nil => intro h; simp [scanInput]
  | cons it rest ih =>
    intro h
    simp [scanInput, ih, scanInputStep_agent, Bool.or_assoc]

/-- C2 (amended): `collectCopilotHeaderHints` sets `agentFromPayload` if and
only if one of the payload conditions of `amendedAgentCond` holds — the
claim's list with two corrections: any non-empty role other than `user` (not
only `assistant`/`tool`) counts in both arrays, and a `previous_response_id`
field that exists forces the flag even when its value is empty. -/
theorem collect_agentFromPayload_amended : ∀ (payload : JVal) (headers : List (String × String)),
    (collectCopilotHeaderHints payload headers).agentFromPayload = amendedAgentCond payload := by
  intro payload headers
  unfold collectCopilotHeaderHints amendedAgentCond
  repeat' split <;>
  (try simp_all [scanMessages_agent, scanInput_agent, Bool.or_assoc])

/-- C2 counterexample: the claim's iff fails on the code in both directions
it constrains. A system-then-user messages payload satisfies none of the
claim's conditions yet `agentFromPayload` is true, and a payload whose
`previous_response_id` is present but empty likewise satisfies none of the
claim's conditions yet `agentFromPayload` is true. -/
theorem collect_agent_claim_counterexample :
    ((collectCopilotHeaderHints payloadSystemUser []).agentFromPayload = true ∧
      claimC2Cond payloadSystemUser = false) ∧
    ((collectCopilotHeaderHints payloadEmptyPrev []).agentFromPayload = true ∧
      claimC2Cond payloadEmptyPrev = false) := by
  exact ⟨⟨rfl, rfl⟩, ⟨rfl, rfl⟩⟩

theorem forceAgentCallEnabled_iff (e : CopilotExecutor) :
    forceAgentCallEnabled e = true ↔ ∃ k ∈ e.cfg.CopilotKey, k.ForceAgentCall = true := by
  simp [forceAgentCallEnabled, List.any_eq_true]

theorem agentInitiatorPersistEnabled_iff (e : CopilotExecutor) :
    agentInitiatorPersistEnabled e = true ↔ ∃ k ∈ e.cfg.CopilotKey, k.AgentInitiatorPersist = true := by
  simp [agentInitiatorPersistEnabled, List.any_eq_true]

/-- C1: `shouldUseAgentInitiator` classifies exactly as the spec's ordered
rule list (a)-(f) with the first match winning (rule (f) classifying agent
iff the key's stored counter was positive before the call), and in
particular an inbound force header yields agent for every payload. -/
theorem shouldUseAgentInitiator_matches_spec :
    ∀ (e : CopilotExecutor) (h : copilotHeaderHints),
      (shouldUseAgentInitiator e h).1 = specInitiatorDecision e h ∧
      (h.forceAgentFromHeaders = true → (shouldUseAgentInitiator e h).1 = true) := by
  intro e h
  constructor
  · unfold shouldUseAgentInitiator specInitiatorDecision
    simp only [← forceAgentCallEnabled_iff]
    cases h1 : h.forceAgentFromHeaders <;>
    cases h2 : forceAgentCallEnabled e <;>
    cases h3 : h.agentFromPayload <;>
    cases h4 : h.userFromPayload <;>
    cases h5 : h.lastUserFromPayload <;>
    by_cases h6 : agentInitiatorPersistEnabled e = true ∧ ¬h.promptCacheKey = "" <;>
    (try simp_all)
    all_goals (cases hp : agentInitiatorPersistEnabled e <;> simp_all)
  · intro hf
    unfold shouldUseAgentInitiator
    simp [hf]

theorem shouldUseAgentInitiator_state_cases (e : CopilotExecutor) (h : copilotHeaderHints) :
    (copilotPersistCondition e h ∧
      shouldUseAgentInitiator e h =
        (decide (0 < e.initiatorCount h.promptCacheKey), bumpInitiator e h.promptCacheKey)) ∨
    (¬ copilotPersistCondition e h ∧ (shouldUseAgentInitiator e h).2 = e) := by
  unfold shouldUseAgentInitiator copilotPersistCondition bumpInitiator
  cases h1 : h.forceAgentFromHeaders <;>
  cases h2 : forceAgentCallEnabled e <;>
  cases h3 : h.agentFromPayload <;>
  cases h4 : h.userFromPayload <;>
  cases h5 : h.lastUserFromPayload <;>
  by_cases h6 : agentInitiatorPersistEnabled e = true ∧ ¬h.promptCacheKey = "" <;>
  (try simp_all)
  all_goals (cases hp : agentInitiatorPersistEnabled e <;> simp_all)

theorem step_pureUser_persist (e : CopilotExecutor) (h : copilotHeaderHints)
    (hforce : forceAgentCallEnabled e = false) (hpu : pureUserHints h)
    (hp : agentInitiatorPersistEnabled e = true) :
    shouldUseAgentInitiator e h =
      (decide (0 < e.initiatorCount h.promptCacheKey), bumpInitiator e h.promptCacheKey) := by
  obtain ⟨u1, u2, u3, u4, u5⟩ := hpu
  unfold shouldUseAgentInitiator bumpInitiator
  simp [u1, u2, u3, u4, u5, hforce, hp]

theorem step_pureUser_noPersist (e : CopilotExecutor) (h : copilotHeaderHints)
    (hforce : forceAgentCallEnabled e = false) (hpu : pureUserHints h)
    (hp : agentInitiatorPersistEnabled e = false) :
    shouldUseAgentInitiator e h = (false, e) := by
  obtain ⟨u1, u2, u3, u4, u5⟩ := hpu
  unfold shouldUseAgentInitiator
  simp [u1, u2, u3, u4, u5, hforce, hp]

theorem bumpInitiator_cfg (e : CopilotExecutor) (k : String) :
    (bumpInitiator e k).cfg = e.cfg := rfl

theorem bumpInitiator_count_eq (e : CopilotExecutor) (k : String) :
    (bumpInitiator e k).initiatorCount k = e.initiatorCount k + 1 := by
  simp [bumpInitiator]

theorem bumpInitiator_count_ne (e : CopilotExecutor) (k k2 : String) (hne : k2 ≠ k) :
    (bumpInitiator e k).initiatorCount k2 = e.initiatorCount k2 := by
  simp [bumpInitiator, hne]

theorem runInitiatorCalls_persist_aux :
    ∀ (hs : List copilotHeaderHints) (e : CopilotExecutor),
      forceAgentCallEnabled e = false →
      agentInitiatorPersistEnabled e = true →
      (∀ h ∈ hs, pureUserHints h) →
      ∀ i h0, hs[i]? = some h0 →
        ((runInitiatorCalls e hs)[i]? = some false ↔
          (e.initiatorCount h0.promptCacheKey = 0 ∧
            h0.promptCacheKey ∉ (hs.take i).map (fun x => x.promptCacheKey))) := by
  intro hs
  induction hs with
  | nil => intro e _ _ _ i h0 hget; simp at hget
  | cons hd tl ih =>
    intro e hforce hpersist hall i h0 hget
    have hhd : pureUserHints hd := hall hd (List.mem_cons_self hd tl)
    have hstep := step_pureUser_persist e hd hforce hhd hpersist
    cases i with
    | zero =>
      simp only [List.getElem?_cons_zero, Option.some.injEq] at hget
      subst hget
      simp [runInitiatorCalls, hstep, decide_eq_false_iff_not]
    | succ j =>
      simp only [List.getElem?_cons_succ] at hget
      have hforce2 : forceAgentCallEnabled (bumpInitiator e hd.promptCacheKey) = false := hforce
      have hpersist2 : agentInitiatorPersistEnabled (bumpInitiator e hd.promptCacheKey) = true := hpersist
      have ihx := ih (bumpInitiator e hd.promptCacheKey) hforce2 hpersist2
        (fun h hm => hall h (List.mem_cons_of_mem hd hm)) j h0 hget
      have hrun : (runInitiatorCalls e (hd :: tl))[j + 1]? =
          (runInitiatorCalls (bumpInitiator e hd.promptCacheKey) tl)[j]? := by
        simp [runInitiatorCalls, hstep]
      rw [hrun, ihx]
      by_cases hk : h0.promptCacheKey = hd.promptCacheKey
      · simp [hk, bumpInitiator_count_eq, List.take_succ_cons]
      · simp [bumpInitiator_count_ne e hd.promptCacheKey h0.promptCacheKey hk,
          List.take_succ_cons, hk]

theorem runInitiatorCalls_noPersist :
    ∀ (hs : List copilotHeaderHints) (e : CopilotExecutor),
      forceAgentCallEnabled e = false →
      agentInitiatorPersistEnabled e = false →
      (∀ h ∈ hs, pureUserHints h) →
      runInitiatorCalls e hs = hs.map (fun _ => false) := by
  intro hs
  induction hs with
  | nil => intro e _ _ _; rfl
  | cons hd tl ih =>
    intro e hforce hpersist hall
    have hstep := step_pureUser_noPersist e hd hforce (hall hd (List.mem_cons_self hd tl)) hpersist
    simp [runInitiatorCalls, hstep, ih e hforce hpersist (fun h hm => hall h (List.mem_cons_of_mem hd hm))]

/-- C3: for calls passing rules (a)-(e) with fresh non-empty cache keys and
no configured force-agent entry: with persistence enabled, a call in the
sequence is classified user exactly when its key did not occur earlier in
the sequence (so exactly the first call per fresh key is user, and a first
call with a different fresh key is user again); with persistence disabled,
every such call is classified user. -/
theorem initiatorPersistence_spec :
    ∀ (e : CopilotExecutor) (hs : List copilotHeaderHints),
      forceAgentCallEnabled e = false →
      (∀ h ∈ hs, pureUserHints h) →
      (∀ h ∈ hs, e.initiatorCount h.promptCacheKey = 0) →
      ((agentInitiatorPersistEnabled e = true →
          ∀ i h0, hs[i]? = some h0 →
            ((runInitiatorCalls e hs)[i]? = some false ↔
              h0.promptCacheKey ∉ (hs.take i).map (fun x => x.promptCacheKey))) ∧
        (agentInitiatorPersistEnabled e = false →
          runInitiatorCalls e hs = hs.map (fun _ => false))) := by
  intro e hs hforce hall hfresh
  constructor
  · intro hp i h0 hget
    have hmem : h0 ∈ hs := List.getElem?_mem hget
    rw [runInitiatorCalls_persist_aux hs e hforce hp hall i h0 hget]
    simp [hfresh h0 hmem]
  · intro hp
    exact runInitiatorCalls_noPersist hs e hforce hp hall

theorem initiatorPersistence_spec_witness :
    (runInitiatorCalls execPersist [hintsUserK1, hintsUserK1, hintsUserK2])[1]? = some false ↔
      hintsUserK1.promptCacheKey ∉
        (([hintsUserK1, hintsUserK1, hintsUserK2].take 1).map (fun x => x.promptCacheKey)) :=
  (initiatorPersistence_spec execPersist [hintsUserK1, hintsUserK1, hintsUserK2]
    (by decide) (by decide) (fun _ _ => rfl)).1 (by decide) 1 hintsUserK1 rfl

/-- C4: a call to `shouldUseAgentInitiator` leaves `initiatorCount` entirely
unchanged unless rules (a)-(e) all fail, persistence is enabled and the
cache key is non-empty; in that single case exactly the key's entry grows by
one and every other entry is unchanged; and no counter ever decreases. -/
theorem initiatorCount_frame :
    ∀ (e : CopilotExecutor) (h : copilotHeaderHints),
      (copilotPersistCondition e h →
        ((shouldUseAgentInitiator e h).2.initiatorCount h.promptCacheKey =
            e.initiatorCount h.promptCacheKey + 1 ∧
          ∀ k, k ≠ h.promptCacheKey →
            (shouldUseAgentInitiator e h).2.initiatorCount k = e.initiatorCount k)) ∧
      (¬ copilotPersistCondition e h → (shouldUseAgentInitiator e h).2 = e) ∧
      (∀ k, e.initiatorCount k ≤ (shouldUseAgentInitiator e h).2.initiatorCount k) := by
  intro e h
  rcases shouldUseAgentInitiator_state_cases e h with ⟨hc, heq⟩ | ⟨hc, heq⟩
  · refine ⟨fun _ => ?_, fun hn => absurd hc hn, fun k => ?_⟩
    · rw [heq]
      exact ⟨bumpInitiator_count_eq e h.promptCacheKey,
        fun k hk => bumpInitiator_count_ne e h.promptCacheKey k hk⟩
    · rw [heq]
      by_cases hk : k = h.promptCacheKey
      · subst hk; simp [bumpInitiator]
      · simp [bumpInitiator, hk]
  · exact ⟨fun hcon => absurd hcon hc, fun _ => heq, fun k => by rw [heq]⟩

theorem initiatorCount_frame_witness :
    (shouldUseAgentInitiator execPersist hintsUserK1).2.initiatorCount hintsUserK1.promptCacheKey =
        execPersist.initiatorCount hintsUserK1.promptCacheKey + 1 ∧
      ∀ k, k ≠ hintsUserK1.promptCacheKey →
        (shouldUseAgentInitiator execPersist hintsUserK1).2.initiatorCount k =
          execPersist.initiatorCount k :=
  (initiatorCount_frame execPersist hintsUserK1).1 (by decide)

theorem shouldUseAgentInitiator_matches_spec_witness :
    (shouldUseAgentInitiator execPlain { forceAgentFromHeaders := true }).1 = true :=
  (shouldUseAgentInitiator_matches_spec execPlain { forceAgentFromHeaders := true }).2 rfl

/-- C5: `copilotHeaderProfileForModel` is total (always CLI or VSCodeChat),
equals the spec's flat ordered rule list 1-8 with the first match winning,
and in particular: `gpt-4` is CLI even when listed in
`VSCodeChatHeaderModels`; the per-model override lists beat the entry-wide
`HeaderProfile` in both directions; and `HeaderProfile` beats the built-in
allowlist. -/
theorem copilotHeaderProfileForModel_spec :
    ∀ (entry : Option CopilotKey) (model : String),
      (copilotHeaderProfileForModel entry model = .cli ∨
        copilotHeaderProfileForModel entry model = .vscodeChat) ∧
      copilotHeaderProfileForModel entry model = copilotHeaderProfileSpec entry model ∧
      copilotHeaderProfileForModel (some { VSCodeChatHeaderModels := ["gpt-4"] }) "gpt-4" = .cli ∧
      copilotHeaderProfileForModel
        (some { HeaderProfile := "vscode-chat", CLIHeaderModels := ["gemini-3-pro"] }) "gemini-3-pro" = .cli ∧
      copilotHeaderProfileForModel
        (some { HeaderProfile := "cli", VSCodeChatHeaderModels := ["gpt-5"] }) "gpt-5" = .vscodeChat ∧
      copilotHeaderProfileForModel (some { HeaderProfile := "vscode-chat" }) "gpt-5" = .vscodeChat := by
  intro entry model
  refine ⟨?_, ?_, by decide, by decide, by decide, by decide⟩
  · cases hpv : copilotHeaderProfileForModel entry model
    · exact Or.inl rfl
    · exact Or.inr rfl
  · unfold copilotHeaderProfileForModel copilotHeaderProfileSpec
    cases entry with
    | none => repeat' split <;> simp_all
    | some e => repeat' split <;> simp_all

/-- C10: the force-agent and persist-initiator flags are each enabled when
ANY configured credential entry enables them (a disjunction over the slice),
while `copilotKeyConfig` — the configuration the header-profile selector
receives — is only the first entry; with zero entries both flags read as
disabled and the selector receives no configuration, and the selected
profile depends on the configuration only through that first entry. -/
theorem copilotConfigScope_spec :
    ∀ (e : CopilotExecutor),
      (forceAgentCallEnabled e = true ↔ ∃ k ∈ e.cfg.CopilotKey, k.ForceAgentCall = true) ∧
      (agentInitiatorPersistEnabled e = true ↔ ∃ k ∈ e.cfg.CopilotKey, k.AgentInitiatorPersist = true) ∧
      copilotKeyConfig e = e.cfg.CopilotKey.head? ∧
      (e.cfg.CopilotKey = [] →
        forceAgentCallEnabled e = false ∧ agentInitiatorPersistEnabled e = false ∧
          copilotKeyConfig e = none) ∧
      (∀ (e2 : CopilotExecutor) (model : String),
        e.cfg.CopilotKey.head? = e2.cfg.CopilotKey.head? →
          copilotHeaderProfileForModel (copilotKeyConfig e) model =
            copilotHeaderProfileForModel (copilotKeyConfig e2) model) := by
  intro e
  refine ⟨forceAgentCallEnabled_iff e, agentInitiatorPersistEnabled_iff e, rfl, ?_, ?_⟩
  · intro hnil
    refine ⟨?_, ?_, ?_⟩ <;> simp [forceAgentCallEnabled, agentInitiatorPersistEnabled, copilotKeyConfig, hnil]
  · intro e2 model hhead
    simp [copilotKeyConfig, hhead]

/-- C10 witness: with zero configured entries both flags are disabled and
the selector receives no configuration. -/
theorem copilotConfigScope_spec_witness :
    forceAgentCallEnabled execPlain = false ∧ agentInitiatorPersistEnabled execPlain = false ∧
      copilotKeyConfig execPlain = none :=
  (copilotConfigScope_spec execPlain).2.2.2.1 rfl

theorem resolveCodexAlias_sound :
    ∀ (model base eff : String), resolveCodexAlias model = (base, eff, true) →
      ∃ effs, (base, effs) ∈ codexAliasFamilies ∧ eff ∈ effs ∧ model = base ++ "-" ++ eff := by
  intro model base eff hres
  unfold resolveCodexAlias at hres
  cases hfind : codexAliasFamilies.find? (fun fam => chPfx (fam.1.data ++ ['-']) model.data) with
  | none => rw [hfind] at hres; simp at hres
  | some fam =>
    rw [hfind] at hres
    dsimp only at hres
    by_cases hmem : String.mk (model.data.drop (fam.1.data.length + 1)) ∈ fam.2
    · rw [if_pos hmem] at hres
      simp only [Prod.mk.injEq] at hres
      obtain ⟨h1, h2, -⟩ := hres
      have hpred := List.find?_some hfind
      have hp : (fam.1.data ++ ['-']) <+: model.data := (chPfx_iff _ _).1 hpred
      obtain ⟨t, ht⟩ := hp
      have hlen : (fam.1.data ++ ['-']).length = fam.1.data.length + 1 := by simp
      have hdrop : model.data.drop (fam.1.data.length + 1) = t := by
        rw [← ht, ← hlen, List.drop_left]
      refine ⟨fam.2, ?_, ?_, ?_⟩
      · rw [← h1]
        exact List.mem_of_find?_eq_some hfind
      · rw [← h2]
        exact hmem
      · rw [← h1, ← h2]
        apply string_data_ext
        rw [string_append_data, string_append_data]
        show model.data = fam.1.data ++ ['-'] ++ (model.data.drop (fam.1.data.length + 1))
        rw [hdrop]
        exact ht.symm
    · rw [if_neg hmem] at hres
      simp at hres

/-- C6: `resolveCodexAlias` returns ok exactly for `<family>-<effort>` with
the effort in that family's vocabulary (soundness gives the decomposition,
completeness resolves every valid pair to the right base and effort); the
longest family prefix wins (`gpt-5.1-codex-max-xhigh`); and bare families,
unrelated models, the empty string, and unknown suffixes all fail. -/
theorem resolveCodexAlias_spec :
    (∀ (model base eff : String), resolveCodexAlias model = (base, eff, true) →
      ∃ effs, (base, effs) ∈ codexAliasFamilies ∧ eff ∈ effs ∧ model = base ++ "-" ++ eff) ∧
    (∀ fam ∈ codexAliasFamilies, ∀ eff ∈ fam.2,
      resolveCodexAlias (fam.1 ++ "-" ++ eff) = (fam.1, eff, true)) ∧
    resolveCodexAlias "gpt-5.1-codex-max-xhigh" = ("gpt-5.1-codex-max", "xhigh", true) ∧
    resolveCodexAlias "gpt-5" = ("", "", false) ∧
    resolveCodexAlias "gpt-5-codex" = ("", "", false) ∧
    resolveCodexAlias "claude-sonnet-4" = ("", "", false) ∧
    resolveCodexAlias "" = ("", "", false) ∧
    resolveCodexAlias "gpt-5.1-minimal" = ("", "", false) :=
  ⟨resolveCodexAlias_sound, by decide, by decide, by decide, by decide, by decide, by decide, by decide⟩

/-- C6 witness: the soundness direction applied at `gpt-5-high`. -/
theorem resolveCodexAlias_spec_witness :
    ∃ effs, ("gpt-5", effs) ∈ codexAliasFamilies ∧ "high" ∈ effs ∧
      "gpt-5-high" = "gpt-5" ++ "-" ++ "high" :=
  resolveCodexAlias_spec.1 "gpt-5-high" "gpt-5" "high" (by decide)

/-- C7: `setReasoningEffortByAlias` always overwrites top-level `model`;
when the trimmed lower-cased effort is non-empty it sets `reasoning.effort`
to the normalized value, otherwise it writes nothing there (the field stays
exactly what it was, in particular absent when absent); every other
top-level key and every other key inside a `reasoning` object keeps its
value, and key order is preserved with at most `model`/`reasoning` appended
at the end. -/
theorem setReasoningEffortByAlias_spec :
    ∀ (fields : List (String × JVal)) (baseModel effort : String),
      jget (setReasoningEffortByAlias (.obj fields) baseModel effort) "model" =
          some (.str baseModel) ∧
      (lowerStr (trimStr effort) ≠ "" →
        jgetPath (setReasoningEffortByAlias (.obj fields) baseModel effort) "reasoning" "effort" =
          some (.str (lowerStr (trimStr effort)))) ∧
      (lowerStr (trimStr effort) = "" →
        jgetPath (setReasoningEffortByAlias (.obj fields) baseModel effort) "reasoning" "effort" =
          jgetPath (.obj fields) "reasoning" "effort") ∧
      (∀ k, k ≠ "model" → k ≠ "reasoning" →
        jget (setReasoningEffortByAlias (.obj fields) baseModel effort) k =
          jget (.obj fields) k) ∧
      (∀ k, k ≠ "effort" →
        jgetPath (setReasoningEffortByAlias (.obj fields) baseModel effort) "reasoning" k =
          jgetPath (.obj fields) "reasoning" k) ∧
      (∃ outFields extra,
        setReasoningEffortByAlias (.obj fields) baseModel effort = .obj outFields ∧
        outFields.map Prod.fst = fields.map Prod.fst ++ extra ∧
        ∀ k ∈ extra, k = "model" ∨ k = "reasoning") := by
  intro fields baseModel effort
  by_cases he : lowerStr (trimStr effort) = ""
  · -- effort empty: only the model key is written
    have hout : setReasoningEffortByAlias (.obj fields) baseModel effort =
        .obj (setObjKey fields "model" (.str baseModel)) := by
      unfold setReasoningEffortByAlias jsetTop
      rw [if_pos he]
    refine ⟨?_, fun hne => absurd he hne, fun _ => ?_, fun k hk1 hk2 => ?_, fun k hk => ?_, ?_⟩
    · rw [hout]; exact lookupField_setObjKey_self fields "model" (.str baseModel)
    · rw [hout]
      unfold jgetPath
      simp only [jget]
      rw [lookupField_setObjKey_other fields "model" (.str baseModel) "reasoning" (by decide)]
    · rw [hout]
      simp only [jget]
      exact lookupField_setObjKey_other fields "model" (.str baseModel) k hk1
    · rw [hout]
      unfold jgetPath
      simp only [jget]
      rw [lookupField_setObjKey_other fields "model" (.str baseModel) "reasoning" (by decide)]
    · obtain ⟨extra, hmap, hall⟩ := setObjKey_keys fields "model" (.str baseModel)
      exact ⟨setObjKey fields "model" (.str baseModel), extra, hout, hmap,
        fun k hk => Or.inl (hall k hk)⟩
  · -- effort non-empty: model written, then reasoning.effort written
    have hre := lookupField_setObjKey_other fields "model" (.str baseModel) "reasoning" (by decide)
    have hv : ∃ rv, setReasoningEffortByAlias (.obj fields) baseModel effort =
        .obj (setObjKey (setObjKey fields "model" (.str baseModel)) "reasoning" rv) ∧
        jget rv "effort" = some (.str (lowerStr (trimStr effort))) ∧
        (∀ k, k ≠ "effort" → jget rv k = jgetPath (.obj fields) "reasoning" k) := by
      rcases hr : lookupField fields "reasoning" with _ | v
      · refine ⟨.obj [("effort", .str (lowerStr (trimStr effort)))], ?_, by simp [jget, lookupField], ?_⟩
        · unfold setReasoningEffortByAlias jsetTop
          rw [if_neg he]
          simp only [jget]
          rw [hre, hr]
        · intro k hk
          simp [jgetPath, jget, hr, lookupField, Ne.symm hk]
      · have houtv : ∀ rv2,
            (match lookupField fields "reasoning" with
             | some (.obj fs) => JVal.obj (setObjKey fs "effort" (.str (lowerStr (trimStr effort))))
             | _ => JVal.obj [("effort", .str (lowerStr (trimStr effort)))]) = rv2 →
            setReasoningEffortByAlias (.obj fields) baseModel effort =
              .obj (setObjKey (setObjKey fields "model" (.str baseModel)) "reasoning" rv2) := by
          intro rv2 hrv2
          unfold setReasoningEffortByAlias jsetTop
          rw [if_neg he]
          simp only [jget]
          rw [hre, hrv2]
        cases v with
        | obj fs =>
          refine ⟨.obj (setObjKey fs "effort" (.str (lowerStr (trimStr effort)))), houtv _ (by rw [hr]), ?_, ?_⟩
          · simp only [jget]
            exact lookupField_setObjKey_self fs "effort" _
          · intro k hk
            simp only [jget, jgetPath, hr]
            exact lookupField_setObjKey_other fs "effort" _ k hk
        | null =>
          refine ⟨.obj [("effort", .str (lowerStr (trimStr effort)))], houtv _ (by rw [hr]), by simp [jget, lookupField], ?_⟩
          intro k hk
          simp [jgetPath, jget, hr, lookupField, Ne.symm hk]
        | bool b =>
          refine ⟨.obj [("effort", .str (lowerStr (trimStr effort)))], houtv _ (by rw [hr]), by simp [jget, lookupField], ?_⟩
          intro k hk
          simp [jgetPath, jget, hr, lookupField, Ne.symm hk]
        | num n =>
          refine ⟨.obj [("effort", .str (lowerStr (trimStr effort)))], houtv _ (by rw [hr]), by simp [jget, lookupField], ?_⟩
          intro k hk
          simp [jgetPath, jget, hr, lookupField, Ne.symm hk]
        | str s =>
          refine ⟨.obj [("effort", .str (lowerStr (trimStr effort)))], houtv _ (by rw [hr]), by simp [jget, lookupField], ?_⟩
          intro k hk
          simp [jgetPath, jget, hr, lookupField, Ne.symm hk]
        | arr xs =>
          refine ⟨.obj [("effort", .str (lowerStr (trimStr effort)))], houtv _ (by rw [hr]), by simp [jget, lookupField], ?_⟩
          intro k hk
          simp [jgetPath, jget, hr, lookupField, Ne.symm hk]
    obtain ⟨rv, hout, heff, hother⟩ := hv
    refine ⟨?_, fun _ => ?_, fun hemp => absurd hemp he, fun k hk1 hk2 => ?_, fun k hk => ?_, ?_⟩
    · rw [hout]
      simp only [jget]
      rw [lookupField_setObjKey_other _ "reasoning" rv "model" (by decide)]
      exact lookupField_setObjKey_self fields "model" (.str baseModel)
    · rw [hout]
      unfold jgetPath
      simp only [jget, lookupField_setObjKey_self]
      exact heff
    · rw [hout]
      simp only [jget]
      rw [lookupField_setObjKey_other _ "reasoning" rv k hk2]
      exact lookupField_setObjKey_other fields "model" (.str baseModel) k hk1
    · rw [hout]
      unfold jgetPath
      simp only [jget, lookupField_setObjKey_self]
      exact hother k hk
    · obtain ⟨extra1, hmap1, hall1⟩ := setObjKey_keys fields "model" (.str baseModel)
      obtain ⟨extra2, hmap2, hall2⟩ :=
        setObjKey_keys (setObjKey fields "model" (.str baseModel)) "reasoning" rv
      refine ⟨_, extra1 ++ extra2, hout, ?_, ?_⟩
      · rw [hmap2, hmap1, List.append_assoc]
      · intro k hk
        rcases List.mem_append.1 hk with hk1 | hk2
        · exact Or.inl (hall1 k hk1)
        · exact Or.inr (hall2 k hk2)

/-- C7 witness: the normalized-effort write applied on a concrete payload
with effort `" HIGH "`. -/
theorem setReasoningEffortByAlias_spec_witness :
    jgetPath (setReasoningEffortByAlias (.obj [("model", .str "gpt-5-high"), ("x", .num 3)])
        "gpt-5" " HIGH ") "reasoning" "effort" = some (.str (lowerStr (trimStr " HIGH "))) :=
  (setReasoningEffortByAlias_spec [("model", .str "gpt-5-high"), ("x", .num 3)]
    "gpt-5" " HIGH ").2.1 (by decide)

theorem convertResponsesItems_eq_filterMap :
    ∀ items : List JVal, convertResponsesItems items = items.filterMap convertResponsesItem := by
  intro items
  induction items with
  | nil => rfl
  | cons item rest ih =>
    cases hc : convertResponsesItem item <;>
      simp [convertResponsesItems, List.filterMap_cons, hc, ih]

/-- C8: the Responses-to-ChatCompletions translator is total — for every
payload (however sparse or malformed) the output is a well-formed object
with a `messages` array; on a typed input array the messages are exactly the
recognized entries in order (`filterMap`), each role-bearing entry becoming
one message with its role preserved and string content passed through
unchanged, while entries without a role (unrecognized item types) are
skipped without aborting. -/
theorem convertResponses_spec :
    (∀ (modelName : String) (payload : JVal) (stream : Bool), ∃ msgs,
      jget (ConvertOpenAIResponsesRequestToOpenAIChatCompletions modelName payload stream)
        "messages" = some (.arr msgs)) ∧
    (∀ (modelName : String) (stream : Bool) (items : List JVal),
      jget (ConvertOpenAIResponsesRequestToOpenAIChatCompletions modelName
          (.obj [("input", .arr items)]) stream) "messages" =
        some (.arr (items.filterMap convertResponsesItem))) ∧
    (∀ (item : JVal) (r s : String), jget item "role" = some (.str r) → r ≠ "" →
      jget item "content" = some (.str s) →
      convertResponsesItem item = some (.obj [("role", .str r), ("content", .str s)])) ∧
    (∀ item : JVal, jget item "role" = none → convertResponsesItem item = none) := by
  refine ⟨?_, ?_, ?_, ?_⟩
  · intro modelName payload stream
    exact ⟨_, rfl⟩
  · intro modelName stream items
    rw [← convertResponsesItems_eq_filterMap]
    rfl
  · intro item r s hrole hr hcontent
    unfold convertResponsesItem
    simp [jgetStr, hrole, jstr, hr, hcontent]
  · intro item hrole
    unfold convertResponsesItem
    simp [jgetStr, hrole]

/-- C8 witness: a concrete user entry with string content converts to the
same role and content. -/
theorem convertResponses_spec_witness :
    convertResponsesItem (.obj [("role", .str "user"), ("content", .str "hello there")]) =
      some (.obj [("role", .str "user"), ("content", .str "hello there")]) :=
  convertResponses_spec.2.2.1 (.obj [("role", .str "user"), ("content", .str "hello there")])
    "user" "hello there" rfl (by decide) rfl

theorem essentialCopilotModels_attrs :
    ∀ m0 ∈ essentialCopilotModels,
      0 < m0.ContextLength ∧ 0 < m0.MaxCompletionTokens ∧
        m0.SupportedParameters ≠ [] ∧ "tools" ∈ m0.SupportedParameters := by
  decide

theorem mergePred_iff (existing : List ModelInfo) (m0 : ModelInfo) :
    (!existing.any (fun e => lowerStr e.ID == lowerStr m0.ID)) = true ↔
      ¬ ∃ e ∈ existing, lowerStr e.ID = lowerStr m0.ID := by
  simp [List.any_eq_true]

/-- C9 (amended): `mergeEssentialCopilotModels` keeps the existing entries
first, unchanged and in order; it appends exactly the essential models
missing under case-insensitive ID comparison, stamped with `Created = now`,
positive limits, and a non-empty supported-parameter set containing `tools`;
re-applying it to its own output (any timestamp) appends nothing; and the
output IDs are case-insensitively duplicate-free whenever the input's
already were (the unconditional duplicate-freedom of the claim fails when
the input itself carries duplicates). -/
theorem mergeEssentialCopilotModels_spec :
    ∀ (existing : List ModelInfo) (now : Int),
      (mergeEssentialCopilotModels existing now).take existing.length = existing ∧
      (∃ appended, mergeEssentialCopilotModels existing now = existing ++ appended ∧
        (∀ m ∈ appended, m.Created = now ∧ 0 < m.ContextLength ∧ 0 < m.MaxCompletionTokens ∧
          m.SupportedParameters ≠ [] ∧ "tools" ∈ m.SupportedParameters) ∧
        (∀ m0 ∈ essentialCopilotModels,
          (¬ ∃ e ∈ existing, lowerStr e.ID = lowerStr m0.ID) →
            { m0 with Created := now } ∈ appended) ∧
        (∀ m ∈ appended, ∃ m0 ∈ essentialCopilotModels,
          m = { m0 with Created := now } ∧
            ¬ ∃ e ∈ existing, lowerStr e.ID = lowerStr m0.ID)) ∧
      (∀ now2 : Int, mergeEssentialCopilotModels (mergeEssentialCopilotModels existing now) now2 =
        mergeEssentialCopilotModels existing now) ∧
      ((existing.map (fun m => lowerStr m.ID)).Nodup →
        ((mergeEssentialCopilotModels existing now).map (fun m => lowerStr m.ID)).Nodup) := by
  intro existing now
  have hmerge : mergeEssentialCopilotModels existing now =
      existing ++ (essentialCopilotModels.filter
          (fun m => !existing.any (fun e => lowerStr e.ID == lowerStr m.ID))).map
        (fun m => { m with Created := now }) := rfl
  have hsound : ∀ m ∈ (essentialCopilotModels.filter
        (fun m => !existing.any (fun e => lowerStr e.ID == lowerStr m.ID))).map
      (fun m => { m with Created := now }),
      ∃ m0 ∈ essentialCopilotModels, m = { m0 with Created := now } ∧
        ¬ ∃ e ∈ existing, lowerStr e.ID = lowerStr m0.ID := by
    intro m hm
    obtain ⟨m0, hm0f, hup⟩ := List.mem_map.1 hm
    obtain ⟨hm0, hp⟩ := List.mem_filter.1 hm0f
    exact ⟨m0, hm0, hup.symm, (mergePred_iff existing m0).1 hp⟩
  refine ⟨?_, ⟨_, hmerge, ?_, ?_, hsound⟩, ?_, ?_⟩
  · rw [hmerge, List.take_left]
  · intro m hm
    obtain ⟨m0, hm0, hup, -⟩ := hsound m hm
    obtain ⟨h1, h2, h3, h4⟩ := essentialCopilotModels_attrs m0 hm0
    subst hup
    exact ⟨rfl, h1, h2, h3, h4⟩
  · intro m0 hm0 hnot
    exact List.mem_map.2 ⟨m0, List.mem_filter.2 ⟨hm0, (mergePred_iff existing m0).2 hnot⟩, rfl⟩
  · intro now2
    have hnil : essentialCopilotModels.filter
        (fun m2 => !(mergeEssentialCopilotModels existing now).any
          (fun e2 => lowerStr e2.ID == lowerStr m2.ID)) = [] := by
      rw [List.filter_eq_nil_iff]
      intro m0 hm0
      simp only [Bool.not_eq_true, Bool.not_eq_false]
      rw [Bool.not_eq_false']
      rw [List.any_eq_true]
      cases hany : existing.any (fun e => lowerStr e.ID == lowerStr m0.ID) with
      | true =>
        obtain ⟨e, he, heq⟩ := List.any_eq_true.1 hany
        rw [hmerge]
        exact ⟨e, List.mem_append_left _ he, heq⟩
      | false =>
        rw [hmerge]
        refine ⟨{ m0 with Created := now }, List.mem_append_right _ ?_, by simp⟩
        refine List.mem_map.2 ⟨m0, List.mem_filter.2 ⟨hm0, ?_⟩, rfl⟩
        rw [hany]
        rfl
    conv_lhs => rw [mergeEssentialCopilotModels]
    rw [hnil]
    simp
  · intro hnodup
    rw [hmerge, List.map_append]
    refine List.Nodup.append hnodup ?_ ?_
    · have hsub : ((essentialCopilotModels.filter
            (fun m => !existing.any (fun e => lowerStr e.ID == lowerStr m.ID))).map
          (fun m => { m with Created := now })).map (fun m => lowerStr m.ID) =
          (essentialCopilotModels.filter
            (fun m => !existing.any (fun e => lowerStr e.ID == lowerStr m.ID))).map
          (fun m => lowerStr m.ID) := by
        rw [List.map_map]
        rfl
      rw [hsub]
      have hes : (essentialCopilotModels.map (fun m => lowerStr m.ID)).Nodup := by decide
      exact hes.sublist ((List.filter_sublist _).map _)
    · intro a ha hb
      obtain ⟨e, he, heid⟩ := List.mem_map.1 ha
      obtain ⟨m, hm, hmid⟩ := List.mem_map.1 hb
      obtain ⟨m0, hm0, hup, hnot⟩ := hsound m hm
      apply hnot
      refine ⟨e, he, ?_⟩
      rw [heid, ← hmid, hup]

/-- C9 witness: merging into an empty catalog yields duplicate-free IDs. -/
theorem mergeEssentialCopilotModels_spec_witness :
    ((mergeEssentialCopilotModels [] 5).map (fun m => lowerStr m.ID)).Nodup :=
  (mergeEssentialCopilotModels_spec [] 5).2.2.2 (by decide)

/-- C9 counterexample: on an input already holding `gpt-5` and `GPT-5`,
even the double application keeps two case-insensitively equal IDs, so the
claim's "the result never contains two entries whose IDs are
case-insensitively equal" is false as stated. -/
theorem mergeEssentialCopilotModels_dup_counterexample :
    ¬ ((mergeEssentialCopilotModels (mergeEssentialCopilotModels dupModelList 0) 1).map
        (fun m => lowerStr m.ID)).Nodup := by
  decide
